import Mathlib

/-!
Formal model of the samantha voice-assistant repository.

Client side (client/src): the VAD segmenter loop of main.py, the PCM16
conversion helpers and the linear-interpolation resampler of audio_utils.py,
and the frame accumulator of audio_io.py.  Server side (brain/src): the
per-connection orchestrator of brain_server.py and the tool-calling
dialogue round of openai_pipe.py.

Modelling conventions: byte strings are lists of naturals (each < 256 where
it matters), NumPy floats are exact rationals, external collaborators
(webrtcvad classifier, OpenAI engine, Meross garage controller, JSON
decoding of tool arguments) are oracle parameters, and each handler returns
an explicit trace of the messages it sent and the external calls it made.
-/

namespace Samantha

/-! ### VAD segmenter (client/src/main.py, vad_task) -/

/-- Hysteresis state of the VAD segmenter: `speeching` is the
SPEECHING/NOT-SPEECHING flag, `silence_frames` the run counter of
consecutive silence frames, and `speech_frames` the pending queue of
buffered speech frames (each one PCM16 byte string). -/
structure VadState where
  speeching : Bool
  silence_frames : ℕ
  speech_frames : List (List ℕ)
deriving Repr, DecidableEq

/-- `min_speech_frames = 5` in vad_task. -/
def min_speech_frames : ℕ := 5

/-- `end_silence_frames = 10` in vad_task. -/
def end_silence_frames : ℕ := 10

/-- Initial segmenter state: `speeching = False`, `silence_frames = 0`,
empty deque. -/
def vadInit : VadState := ⟨false, 0, []⟩

/-- Length normalization applied to each frame before classification in
vad_task: truncate when too long, zero-pad when too short. -/
def normalizeFrame (frame_bytes_len : ℕ) (frame : List ℕ) : List ℕ :=
  if frame_bytes_len < frame.length then frame.take frame_bytes_len
  else frame ++ List.replicate (frame_bytes_len - frame.length) 0

/-- One iteration of the vad_task loop body, on an already normalized frame
together with the classification returned by the external `vad.is_speech`
call.  Returns the new state and the emitted utterance, if any. -/
def vadStep (st : VadState) (frame : List ℕ) (is_speech : Bool) :
    VadState × Option (List ℕ) :=
  if is_speech then
    (⟨true, 0, st.speech_frames ++ [frame]⟩, none)
  else if st.speeching then
    if end_silence_frames ≤ st.silence_frames + 1 ∧
        min_speech_frames ≤ st.speech_frames.length then
      (⟨false, 0, []⟩, some st.speech_frames.flatten)
    else
      (⟨true, st.silence_frames + 1, st.speech_frames⟩, none)
  else
    (st, none)

/-- Run the segmenter over a list of (frame, classification) pairs,
collecting the emitted utterances in order. -/
def vadRun (st : VadState) : List (List ℕ × Bool) → VadState × List (List ℕ)
  | [] => (st, [])
  | (f, s) :: rest =>
    ((vadRun (vadStep st f s).1 rest).1,
     (vadStep st f s).2.toList ++ (vadRun (vadStep st f s).1 rest).2)

/-! ### PCM16 / float conversion (client/src/audio_utils.py)

NumPy float32 arithmetic is modelled as exact rational arithmetic; byte
strings are lists of naturals.  The scaled values occurring here
(v / 32768 for an int16 v) are exactly representable in float32. -/

/-- Decode two little-endian bytes as one signed 16-bit sample, as
`np.frombuffer(pcm, dtype=np.int16)` does. -/
def int16OfBytes (lo hi : ℕ) : ℤ :=
  if lo + 256 * hi < 32768 then ((lo + 256 * hi : ℕ) : ℤ)
  else ((lo + 256 * hi : ℕ) : ℤ) - 65536

/-- Split a PCM16 byte string into its int16 samples (little endian).
`np.frombuffer` raises on an odd byte count; a trailing odd byte is
ignored here and the theorems restrict to even lengths. -/
def bytesToInt16s : List ℕ → List ℤ
  | lo :: hi :: rest => int16OfBytes lo hi :: bytesToInt16s rest
  | _ => []

/-- Truncation toward zero, as `ndarray.astype(np.int16)` drops the
fractional part of a float. -/
def ratTrunc (q : ℚ) : ℤ := if q < 0 then ⌈q⌉ else ⌊q⌋

/-- Wrapping into int16 range, as the astype cast wraps on overflow. -/
def wrap16 (v : ℤ) : ℤ := (v + 32768) % 65536 - 32768

/-- Encode an int16 value as two little-endian bytes (`tobytes`). -/
def int16ToBytes (v : ℤ) : List ℕ :=
  [(v % 65536).toNat % 256, (v % 65536).toNat / 256]

/-- `pcm16_to_float`: int16 samples divided by 32768.0. -/
def pcm16_to_float (pcm : List ℕ) : List ℚ :=
  (bytesToInt16s pcm).map (fun v : ℤ => (v : ℚ) / 32768)

/-- `np.clip(x, -1.0, 1.0)` on one sample. -/
def clip1 (x : ℚ) : ℚ := max (-1) (min x 1)

/-- One sample of `float_to_pcm16`: clip, scale by 32767.0, cast to
int16. -/
def floatSampleToInt16 (x : ℚ) : ℤ := wrap16 (ratTrunc (clip1 x * 32767))

/-- `float_to_pcm16`: clip to [-1, 1], scale by 32767, cast each sample to
int16, and serialize little endian. -/
def float_to_pcm16 (xs : List ℚ) : List ℕ :=
  xs.flatMap (fun x => int16ToBytes (floatSampleToInt16 x))

/-! ### Resampler (client/src/audio_utils.py, resample_float) -/

/-- Python `round` (round half to even), as `int(round(...))` uses. -/
def pyRound (q : ℚ) : ℤ :=
  if q - ⌊q⌋ < 1/2 then ⌊q⌋
  else if 1/2 < q - ⌊q⌋ then ⌊q⌋ + 1
  else if ⌊q⌋ % 2 = 0 then ⌊q⌋ else ⌊q⌋ + 1

/-- `dst_len = int(round(src_len * (dst_sr / src_sr)))`. -/
def resample_out_len (src_len src_sr dst_sr : ℕ) : ℕ :=
  (pyRound ((src_len : ℚ) * ((dst_sr : ℚ) / (src_sr : ℚ)))).toNat

/-- `resample_float`: identity on equal rates, a single zero sample when
the computed output length is at most 1, otherwise linear interpolation at
`dst_len` uniformly spaced positions across [0, src_len - 1] with the
right index clamped to the last valid index.  NumPy float arithmetic is
modelled exactly; `src_sr = 0` raises ZeroDivisionError in Python and is
outside the model. -/
def resample_float (x : List ℚ) (src_sr dst_sr : ℕ) : List ℚ :=
  if src_sr = dst_sr then x
  else
    let src_len := x.length
    let dst_len := resample_out_len src_len src_sr dst_sr
    if dst_len ≤ 1 then [0]
    else
      (List.range dst_len).map (fun i : ℕ =>
        let src_idx : ℚ := ((src_len : ℚ) - 1) * (i : ℚ) / ((dst_len : ℚ) - 1)
        let left := ⌊src_idx⌋.toNat
        let right := min (left + 1) (src_len - 1)
        let frac := src_idx - (⌊src_idx⌋ : ℚ)
        (1 - frac) * x.getD left 0 + frac * x.getD right 0)

/-- The interpolation clause of the spec, stated with the ceiling index:
linear interpolation of `x` at fractional position `p`, with the ceiling
index clamped to the last valid index. -/
def lerpAt (x : List ℚ) (p : ℚ) : ℚ :=
  (1 - (p - (⌊p⌋ : ℚ))) * x.getD ⌊p⌋.toNat 0 +
    (p - (⌊p⌋ : ℚ)) * x.getD (min ⌈p⌉.toNat (x.length - 1)) 0

/-! ### Frame accumulator (client/src/audio_io.py, MicStream.start) -/

/-- `frame_len = int(target_sr * frame_ms / 1000)`. -/
def frame_samples (target_sr frame_ms : ℕ) : ℕ := target_sr * frame_ms / 1000

/-- The emit loop of the MicStream callback: while the backlog holds at
least `frame_len` samples, slice one frame off and convert it to PCM16.
A zero `frame_len`, which would loop forever in the source, returns the
backlog unchanged; the theorems assume `0 < frame_len`. -/
def emit_frames (frame_len : ℕ) (accum : List ℚ) : List ℚ × List (List ℕ) :=
  if _h : 0 < frame_len ∧ frame_len ≤ accum.length then
    let r := emit_frames frame_len (accum.drop frame_len)
    (r.1, float_to_pcm16 (accum.take frame_len) :: r.2)
  else (accum, [])
termination_by accum.length
decreasing_by
  simp only [List.length_drop]
  omega

/-- One MicStream callback on a batch of already-resampled samples:
append to the backlog, then emit all full frames. -/
def accumStep (frame_len : ℕ) (accum batch : List ℚ) :
    List ℚ × List (List ℕ) :=
  emit_frames frame_len (accum ++ batch)

/-- Run the callback over a sequence of batches, collecting the emitted
frames in order. -/
def accumRun (frame_len : ℕ) (accum : List ℚ) :
    List (List ℚ) → List ℚ × List (List ℕ)
  | [] => (accum, [])
  | b :: bs =>
    ((accumRun frame_len (accumStep frame_len accum b).1 bs).1,
     (accumStep frame_len accum b).2 ++
       (accumRun frame_len (accumStep frame_len accum b).1 bs).2)

/-! ### Dialogue pipeline (brain/src/openai_pipe.py, OpenAIPipeline.llm)

The OpenAI chat engine is an oracle from (messages, tools offered) to a
response message; the Device Controller (brain/src/tools.py) and the JSON
decoding of tool arguments are oracles as well. -/

/-- One tool call of a completion response (`tc.id`, `tc.function.name`,
`tc.function.arguments`; a falsy arguments payload is the empty string). -/
structure ToolCall where
  id : String
  fname : String
  arguments : String
deriving Repr, DecidableEq

/-- The message of a completion response: optional text content and the
requested tool calls.  Python treats `None` and `[]` alike through
`if not tool_calls`; both are the empty list here. -/
structure EngineMsg where
  content : Option String
  tool_calls : List ToolCall
deriving Repr, DecidableEq

/-- A chat message as built by `llm` (system, user, assistant or tool). -/
structure ChatMsg where
  role : String
  content : Option String
  name : Option String := none
  tool_call_id : Option String := none
  tool_calls : List ToolCall := []
deriving Repr, DecidableEq

/-- The Device Controller collaborator (brain/src/tools.py): the two
garage actions, as oracles returning the structured result already
serialized. -/
structure DeviceOracle where
  tool_garage_open : Option String → String
  tool_garage_close : Option String → String

/-- `_call_tool`: route one tool call by name to the Device Controller;
an unknown name produces a structured error without any controller call.
Returns the serialized result and the controller invocations performed
(action and door argument). -/
def call_tool (dev : DeviceOracle) (fname : String)
    (args : List (String × String)) : String × List (String × Option String) :=
  let door := args.lookup "door"
  if fname = "garage_open" then
    (dev.tool_garage_open door, [("garage_open", door)])
  else if fname = "garage_close" then
    (dev.tool_garage_close door, [("garage_close", door)])
  else
    ("\x7b\"ok\": false, \"error\": \"Unknown tool: " ++ fname ++ "\"\x7d", [])

/-- Whether a tool call names one of the known tools. -/
def knownTool (tc : ToolCall) : Bool :=
  tc.fname == "garage_open" || tc.fname == "garage_close"

/-- Python `s or t` for an optional string: `None` and `""` are falsy. -/
def pyOrStr (s : Option String) (t : String) : String :=
  match s with
  | none => t
  | some v => if v = "" then t else v

/-- `BrainServer._persona_system_prompt`: a falsy persona resolves to
None, otherwise `persona_prompts.get(persona)`. -/
def persona_system_prompt (prompts : List (String × String))
    (persona : Option String) : Option String :=
  match persona with
  | none => none
  | some p => if p = "" then none else prompts.lookup p

/-- Trace of one `llm` call: the reply, the completion requests issued in
order (messages, tools offered), and the Device Controller invocations. -/
structure LlmOut where
  reply : String
  requests : List (List ChatMsg × Bool)
  device_calls : List (String × Option String)
deriving Repr, DecidableEq

/-- The initial messages of `llm`: the system prompt
(`system_prompt or self.cfg.system_prompt`) and the user text. -/
def llmInitMessages (text : String) (system_prompt : Option String)
    (default_prompt : String) : List ChatMsg :=
  [{ role := "system", content := some (pyOrStr system_prompt default_prompt) },
   { role := "user", content := some text }]

/-- The assistant message echoing the tool calls, as `llm` appends it. -/
def assistantToolMsg (msg : EngineMsg) : ChatMsg :=
  { role := "assistant", content := msg.content, tool_calls := msg.tool_calls }

/-- Process one tool call: decode its arguments (a falsy payload becomes
`{}`, a failing decode the empty dict), dispatch `_call_tool`, and append
the tool-result message correlated by the call id. -/
def processToolCall (dev : DeviceOracle)
    (parseArgs : String → Option (List (String × String)))
    (acc : List ChatMsg × List (String × Option String)) (tc : ToolCall) :
    List ChatMsg × List (String × Option String) :=
  let raw := if tc.arguments = "" then "\x7b\x7d" else tc.arguments
  let args := (parseArgs raw).getD []
  let r := call_tool dev tc.fname args
  (acc.1 ++ [{ role := "tool", content := some r.1, name := some tc.fname,
               tool_call_id := some tc.id }],
   acc.2 ++ r.2)

/-- `OpenAIPipeline.llm`: one completion with the tool catalog offered; if
the response requests no tools its stripped text is the reply, otherwise
every tool call is dispatched in order, the results are appended to the
history, and exactly one more completion without tools yields the reply. -/
def llm (engine : List ChatMsg → Bool → EngineMsg) (dev : DeviceOracle)
    (parseArgs : String → Option (List (String × String)))
    (text : String) (system_prompt : Option String)
    (default_prompt : String) : LlmOut :=
  let messages := llmInitMessages text system_prompt default_prompt
  let msg := engine messages true
  if msg.tool_calls = [] then
    { reply := (msg.content.getD "").trim
      requests := [(messages, true)]
      device_calls := [] }
  else
    let start := (messages ++ [assistantToolMsg msg],
      ([] : List (String × Option String)))
    let acc := msg.tool_calls.foldl (processToolCall dev parseArgs) start
    let msg2 := engine acc.1 false
    { reply := (msg2.content.getD "").trim
      requests := [(messages, true), (acc.1, false)]
      device_calls := acc.2 }

/-- A first response carrying one hallucinated tool name (C3 oracle). -/
def c3Engine : List ChatMsg → Bool → EngineMsg := fun _ offered =>
  if offered then { content := none, tool_calls := [⟨"call1", "frobnicate", ""⟩] }
  else { content := some "done", tool_calls := [⟨"call2", "garage_open", ""⟩] }

/-- A response with no tool calls (C3 oracle). -/
def c3EngineNoTools : List ChatMsg → Bool → EngineMsg := fun _ _ =>
  { content := some "ok", tool_calls := [] }

/-- Concrete Device Controller oracle (C3). -/
def c3Dev : DeviceOracle := ⟨fun _ => "r-open", fun _ => "r-close"⟩

/-- Concrete argument decoder that always fails (C3). -/
def c3Parse : String → Option (List (String × String)) := fun _ => none

/-- Engine oracle for the persona-resolution claim (C9). -/
def c9Engine : List ChatMsg → Bool → EngineMsg := fun _ _ =>
  { content := some "hello", tool_calls := [] }

/-- Device Controller oracle for C9. -/
def c9Dev : DeviceOracle := ⟨fun _ => "o", fun _ => "c"⟩

/-- Argument decoder oracle for C9. -/
def c9Parse : String → Option (List (String × String)) := fun _ => some []

/-! ### Session orchestrator (brain/src/brain_server.py, handle_client) -/

/-- Whether the first list is a leading segment of the second (helper for
the substring search of `_detect_wake_persona`). -/
def leadsWith : List Char → List Char → Bool
  | [], _ => true
  | _ :: _, [] => false
  | p :: ps, s :: ss => p == s && leadsWith ps ss

/-- Python `pat in s` on character lists. -/
def containsSub (pat : List Char) : List Char → Bool
  | [] => pat.isEmpty
  | c :: rest => leadsWith pat (c :: rest) || containsSub pat rest

/-- `_detect_wake_persona`: case-insensitive substring match against the
fixed trigger registry, first match wins. -/
def detect_wake_persona (text : String) : Option String :=
  if containsSub ("samantha".toList) (text.toLower.toList) then some "samantha"
  else if containsSub ("krishna".toList) (text.toLower.toList) then some "krishna"
  else none

/-- An open utterance buffer.  The `started_at` wall-clock timestamp is
opaque to the control logic and omitted.  `mode` is
`data.get("mode", "query")` (a JSON null is `none`), `persona` is
`data.get("persona")`. -/
structure UtteranceBuffer where
  pcm : List ℕ
  mode : Option String
  persona : Option String
  sample_rate : Int
  channels : Int
deriving Repr, DecidableEq

/-- Per-connection state after the handshake: the optional open buffer and
the session sample rate and channel count from the hello. -/
structure ConnState where
  buf : Option UtteranceBuffer
  sr : Int
  ch : Int
deriving Repr, DecidableEq

/-- The messages the server can send on one connection. -/
inductive ServerSend
  | status (state detail : String)
  | wake_result (persona : Option String)
  | assistant_text (persona : Option String) (text : String)
  | tts_start (persona : Option String)
  | audio (pcm : List ℕ)
  | tts_end (persona : Option String)
deriving Repr, DecidableEq

/-- One parsed client event after the handshake.  `Option (Option α)`
fields distinguish an absent JSON key (outer `none`) from a key present
with `null` (inner `none`); `utterance_start.persona` uses a plain
`.get(...)`, which collapses the two.  Control messages whose numeric
fields make Python's `int()` raise are outside the model (they tear the
connection down). -/
inductive ClientEvent
  | binary (b : List ℕ)
  | badJson
  | utterance_start (mode : Option (Option String)) (persona : Option String)
      (sr : Option Int) (ch : Option Int)
  | utterance_end (mode : Option (Option String))
      (persona : Option (Option String))
  | other
deriving Repr, DecidableEq

/-- The external Dialogue Engine behind `pipeline.stt` (returned
transcript), `pipeline.llm` (returned reply given text and system prompt)
and `pipeline.tts_pcm24k`, as oracles. -/
structure PipelineOracle where
  stt : List ℕ → String
  llm : String → Option String → String
  tts : String → List ℕ

/-- Result of processing one event: the next connection state, messages
sent, transcription calls made, and completion calls made (text and
resolved system prompt). -/
structure StepOut where
  st : ConnState
  sent : List ServerSend
  stt_calls : List (List ℕ)
  llm_calls : List (String × Option String)
deriving Repr, DecidableEq

/-- Effective mode of an utterance_end:
`data.get("mode", getattr(buf, "mode", "query"))`. -/
def endMode (buf : Option UtteranceBuffer)
    (mfield : Option (Option String)) : Option String :=
  match mfield with
  | some v => v
  | none =>
    match buf with
    | some b => b.mode
    | none => some "query"

/-- Effective persona of an utterance_end:
`data.get("persona", getattr(buf, "persona", None))`. -/
def endPersona (buf : Option UtteranceBuffer)
    (pfield : Option (Option String)) : Option String :=
  match pfield with
  | some v => v
  | none =>
    match buf with
    | some b => b.persona
    | none => none

/-- The minimum viable utterance size: `len(buf.pcm) < 2000` discards. -/
def min_utterance_bytes : ℕ := 2000

/-- One iteration of the post-handshake message loop of `handle_client`. -/
def serverStep (prompts : List (String × String)) (o : PipelineOracle)
    (st : ConnState) : ClientEvent → StepOut
  | .binary b =>
    match st.buf with
    | some u => ⟨{ st with buf := some { u with pcm := u.pcm ++ b } }, [], [], []⟩
    | none => ⟨st, [], [], []⟩
  | .badJson => ⟨st, [], [], []⟩
  | .other => ⟨st, [], [], []⟩
  | .utterance_start mfield persona srf chf =>
    let nb : UtteranceBuffer :=
      { pcm := []
        mode := (match mfield with | some v => v | none => some "query")
        persona := persona
        sample_rate := srf.getD st.sr
        channels := chf.getD st.ch }
    ⟨{ st with buf := some nb }, [.status "LISTENING" "Listening…"], [], []⟩
  | .utterance_end mfield pfield =>
    let buf := st.buf
    let st' := { st with buf := none }
    let mode := endMode buf mfield
    let persona := endPersona buf pfield
    match buf with
    | none => ⟨st', [.status "IDLE" ""], [], []⟩
    | some b =>
      if b.pcm.length < min_utterance_bytes then
        ⟨st', [.status "IDLE" ""], [], []⟩
      else
        let text := o.stt b.pcm
        if text = "" then
          ⟨st', [.status "THINKING" "Transcribing…", .status "IDLE" ""],
           [b.pcm], []⟩
        else if mode = some "wake" then
          ⟨st', [.status "THINKING" "Transcribing…",
                 .wake_result (detect_wake_persona text), .status "IDLE" ""],
           [b.pcm], []⟩
        else
          let sys_prompt := persona_system_prompt prompts persona
          let reply := o.llm text sys_prompt
          ⟨st', [.status "THINKING" "Transcribing…",
                 .status "THINKING" "Thinking…",
                 .assistant_text persona reply,
                 .status "SPEAKING" "Speaking…",
                 .tts_start persona,
                 .audio (o.tts reply),
                 .tts_end persona,
                 .status "IDLE" ""],
           [b.pcm], [(text, sys_prompt)]⟩

/-- Accumulated trace of a run of the message loop. -/
structure RunOut where
  st : ConnState
  sent : List ServerSend
  stt_calls : List (List ℕ)
  llm_calls : List (String × Option String)
deriving Repr, DecidableEq

/-- Run the message loop over a list of events. -/
def serverRun (prompts : List (String × String)) (o : PipelineOracle)
    (st : ConnState) : List ClientEvent → RunOut
  | [] => ⟨st, [], [], []⟩
  | ev :: rest =>
    ⟨(serverRun prompts o (serverStep prompts o st ev).st rest).st,
     (serverStep prompts o st ev).sent ++
       (serverRun prompts o (serverStep prompts o st ev).st rest).sent,
     (serverStep prompts o st ev).stt_calls ++
       (serverRun prompts o (serverStep prompts o st ev).st rest).stt_calls,
     (serverStep prompts o st ev).llm_calls ++
       (serverRun prompts o (serverStep prompts o st ev).st rest).llm_calls⟩

/-- The decoded first message of a connection.  `none` stands for every
failure path (malformed JSON, a non-dict value, a field on which `int()`
raises); they all raise, which tears the connection down before any
processing. -/
structure HelloMsg where
  mtype : Option String
  client_id : Option String
  sr : Option Int
  ch : Option Int
  secret : Option String
deriving Repr, DecidableEq

/-- Result of a whole `handle_client` run: whether the handshake was
accepted, plus the trace. -/
structure SessionOut where
  accepted : Bool
  sent : List ServerSend
  stt_calls : List (List ℕ)
  llm_calls : List (String × Option String)
deriving Repr, DecidableEq

/-- `handle_client`: the handshake (the first message must be a hello
and, when a shared secret is configured — stored stripped — must carry a
matching secret), then the message loop.  A failed handshake closes the
connection with nothing sent and no event processed. -/
def handle_client (shared_secret : String)
    (prompts : List (String × String)) (o : PipelineOracle)
    (first : Option HelloMsg) (events : List ClientEvent) : SessionOut :=
  match first with
  | none => ⟨false, [], [], []⟩
  | some h =>
    if h.mtype ≠ some "hello" then ⟨false, [], [], []⟩
    else
      let sr := h.sr.getD 16000
      let ch := h.ch.getD 1
      if shared_secret ≠ "" ∧ h.secret.getD "" ≠ shared_secret then
        ⟨false, [], [], []⟩
      else
        ⟨true,
         .status "IDLE" "Connected" ::
           (serverRun prompts o ⟨none, sr, ch⟩ events).sent,
         (serverRun prompts o ⟨none, sr, ch⟩ events).stt_calls,
         (serverRun prompts o ⟨none, sr, ch⟩ events).llm_calls⟩

/-- A pipeline oracle whose transcription is always empty (C4, C10). -/
def emptyOracle : PipelineOracle := ⟨fun _ => "", fun _ _ => "", fun _ => []⟩

/-! ### Lemmas about the segmenter -/

theorem vadRun_append (st : VadState) (xs ys : List (List ℕ × Bool)) :
    vadRun st (xs ++ ys) =
      ((vadRun (vadRun st xs).1 ys).1,
       (vadRun st xs).2 ++ (vadRun (vadRun st xs).1 ys).2) := by
  induction xs generalizing st with
  | nil => simp [vadRun]
  | cons p rest ih =>
    obtain ⟨f, s⟩ := p
    simp only [List.cons_append, vadRun, List.append_eq]
    rw [ih]
    simp [List.append_assoc]

/-- A nonempty run of speech-classified frames appends them all to the
queue, sets SPEECHING, resets the silence counter, and emits nothing. -/
theorem vadRun_speech (fs : List (List ℕ)) (st : VadState) (h : fs ≠ []) :
    vadRun st (fs.map (fun f => (f, true))) =
      (⟨true, 0, st.speech_frames ++ fs⟩, []) := by
  induction fs generalizing st with
  | nil => exact absurd rfl h
  | cons f rest ih =>
    have hstep : vadStep st f true = (⟨true, 0, st.speech_frames ++ [f]⟩, none) := by
      simp [vadStep]
    by_cases hr : rest = []
    · subst hr
      simp [vadRun, hstep]
    · simp only [List.map_cons, vadRun, hstep]
      rw [ih ⟨true, 0, st.speech_frames ++ [f]⟩ hr]
      simp

/-- Silence frames while SPEECHING with a queue below `min_speech_frames`
only increment the silence counter: nothing is emitted and the queue is
retained. -/
theorem vadRun_silence_small (fs : List (List ℕ)) (c : ℕ) (q : List (List ℕ))
    (hq : q.length < min_speech_frames) :
    vadRun ⟨true, c, q⟩ (fs.map (fun f => (f, false))) =
      (⟨true, c + fs.length, q⟩, []) := by
  induction fs generalizing c with
  | nil => simp [vadRun]
  | cons f rest ih =>
    have hstep : vadStep ⟨true, c, q⟩ f false = (⟨true, c + 1, q⟩, none) := by
      have hcond : ¬ (end_silence_frames ≤ c + 1 ∧
          min_speech_frames ≤ q.length) := by
        rintro ⟨-, h5⟩
        omega
      simp [vadStep, hcond]
    simp only [List.map_cons, vadRun, hstep]
    rw [ih (c + 1)]
    have harith : c + 1 + rest.length = c + (f :: rest).length := by
      simp only [List.length_cons]
      omega
    simp [harith]

/-- Fewer silence frames than needed to reach the threshold only increment
the counter, whatever the queue holds. -/
theorem vadRun_silence_short (fs : List (List ℕ)) (c : ℕ) (q : List (List ℕ))
    (h : c + fs.length < end_silence_frames) :
    vadRun ⟨true, c, q⟩ (fs.map (fun f => (f, false))) =
      (⟨true, c + fs.length, q⟩, []) := by
  induction fs generalizing c with
  | nil => simp [vadRun]
  | cons f rest ih =>
    have hlen : c + (f :: rest).length = c + 1 + rest.length := by
      simp only [List.length_cons]
      omega
    have hstep : vadStep ⟨true, c, q⟩ f false = (⟨true, c + 1, q⟩, none) := by
      have hcond : ¬ (end_silence_frames ≤ c + 1 ∧
          min_speech_frames ≤ q.length) := by
        rintro ⟨h10, -⟩
        rw [hlen] at h
        omega
      simp [vadStep, hcond]
    simp only [List.map_cons, vadRun, hstep]
    rw [ih (c + 1) (by rw [hlen] at h; omega)]
    have harith : c + 1 + rest.length = c + (f :: rest).length := by
      simp only [List.length_cons]
      omega
    simp [harith]

/-- Silence frames while not SPEECHING are a no-op. -/
theorem vadRun_silence_idle (fs : List (List ℕ)) (st : VadState)
    (h : st.speeching = false) :
    vadRun st (fs.map (fun f => (f, false))) = (st, []) := by
  induction fs with
  | nil => simp [vadRun]
  | cons f rest ih =>
    have hstep : vadStep st f false = (st, none) := by
      simp [vadStep, h]
    simp only [List.map_cons, vadRun, hstep]
    rw [ih]
    simp

/-- C2: starting from the initial VAD segmenter state, feeding at least
`min_speech_frames` speech-classified frames followed by at least
`end_silence_frames` silence-classified frames emits exactly one utterance,
and that utterance is exactly the byte concatenation of the speech frames
in arrival order; the segmenter ends NOT-SPEECHING with an empty queue. -/
theorem vad_emits_single_utterance (speech sil : List (List ℕ))
    (hs : min_speech_frames ≤ speech.length)
    (hl : end_silence_frames ≤ sil.length) :
    vadRun vadInit
        (speech.map (fun f => (f, true)) ++ sil.map (fun f => (f, false))) =
      (⟨false, 0, []⟩, [speech.flatten]) := by
  have hne : speech ≠ [] := by
    intro h
    rw [h] at hs
    simp [min_speech_frames] at hs
  have h9 : (sil.take 9).length = 9 := by
    rw [List.length_take]
    simp only [end_silence_frames] at hl
    omega
  have hdropne : sil.drop 9 ≠ [] := by
    intro hd
    have hlen := congrArg List.length hd
    rw [List.length_drop] at hlen
    simp only [end_silence_frames] at hl
    simp at hlen
    omega
  obtain ⟨m, rest, hmr⟩ := List.exists_cons_of_ne_nil hdropne
  have hsplit : sil.map (fun f => (f, false)) =
      (sil.take 9).map (fun f => (f, false)) ++
        ((m :: rest).map (fun f => (f, false))) := by
    rw [← List.map_append, ← hmr, List.take_append_drop]
  rw [hsplit, vadRun_append, vadRun_speech speech vadInit hne]
  simp only [vadInit, List.nil_append]
  rw [vadRun_append, vadRun_silence_short (sil.take 9) 0 speech
    (by rw [h9]; simp [end_silence_frames])]
  have hstep : vadStep ⟨true, 0 + (sil.take 9).length, speech⟩ m false =
      (⟨false, 0, []⟩, some speech.flatten) := by
    simp only [h9]
    have hcond : end_silence_frames ≤ 9 + 1 ∧
        min_speech_frames ≤ speech.length := by
      exact ⟨by simp [end_silence_frames], hs⟩
    simp [vadStep, hcond]
  simp only [List.map_cons, vadRun, hstep]
  rw [vadRun_silence_idle rest ⟨false, 0, []⟩ rfl]
  simp

/-- C2 witness: five one-byte speech frames then ten silence frames emit
exactly the concatenation of the speech frames. -/
theorem vad_emits_single_utterance_witness :
    vadRun vadInit
        ((List.replicate 5 ([1] : List ℕ)).map (fun f => (f, true)) ++
         (List.replicate 10 ([0] : List ℕ)).map (fun f => (f, false))) =
      (⟨false, 0, []⟩, [(List.replicate 5 ([1] : List ℕ)).flatten]) :=
  vad_emits_single_utterance (List.replicate 5 [1]) (List.replicate 10 [0])
    (by decide) (by decide)

/-- C1 counterexample: one speech frame followed by ten silence frames.
The code emits nothing, but contrary to the claim it does not discard the
pending queue and does not transition to NOT-SPEECHING: the frame is still
buffered and the segmenter is still SPEECHING. -/
theorem vad_short_blip_counterexample :
    ¬ ((vadRun vadInit (([7], true) ::
          (List.replicate 10 ([0] : List ℕ)).map (fun f => (f, false)))).1.speech_frames = [] ∧
       (vadRun vadInit (([7], true) ::
          (List.replicate 10 ([0] : List ℕ)).map (fun f => (f, false)))).1.speeching = false) := by
  decide

/-- C1 amended: fewer than `min_speech_frames` speech frames followed by
any number of silence frames emit nothing, but the pending queue is NOT
discarded: the segmenter stays SPEECHING, keeps all buffered speech frames,
and its silence counter equals the number of silence frames seen. -/
theorem vad_short_blip_retains_queue (speech sil : List (List ℕ))
    (hne : speech ≠ []) (hlt : speech.length < min_speech_frames) :
    vadRun vadInit
        (speech.map (fun f => (f, true)) ++ sil.map (fun f => (f, false))) =
      (⟨true, sil.length, speech⟩, []) := by
  rw [vadRun_append, vadRun_speech speech vadInit hne]
  simp only [vadInit, List.nil_append]
  rw [vadRun_silence_small sil 0 speech hlt]
  simp

/-- C1 amended witness: one speech frame then ten silence frames leave the
frame buffered with the segmenter still SPEECHING. -/
theorem vad_short_blip_retains_queue_witness :
    vadRun vadInit
        (([[7]] : List (List ℕ)).map (fun f => (f, true)) ++
         (List.replicate 10 ([0] : List ℕ)).map (fun f => (f, false))) =
      (⟨true, 10, [[7]]⟩, []) :=
  vad_short_blip_retains_queue [[7]] (List.replicate 10 [0])
    (by decide) (by decide)

/-! ### PCM16 round-trip lemmas (audio_utils.py) -/

theorem bytesToInt16s_length : ∀ (b : List ℕ), b.length % 2 = 0 →
    2 * (bytesToInt16s b).length = b.length
  | [], _ => rfl
  | [_], h => by simp at h
  | lo :: hi :: rest, h => by
    have hr : rest.length % 2 = 0 := by
      simp only [List.length_cons] at h
      omega
    have ih := bytesToInt16s_length rest hr
    simp only [bytesToInt16s, List.length_cons]
    omega

theorem int16OfBytes_range (lo hi : ℕ) (hlo : lo < 256) (hhi : hi < 256) :
    -32768 ≤ int16OfBytes lo hi ∧ int16OfBytes lo hi ≤ 32767 := by
  unfold int16OfBytes
  split <;> omega

theorem bytesToInt16s_range : ∀ (b : List ℕ), (∀ x ∈ b, x < 256) →
    ∀ v ∈ bytesToInt16s b, -32768 ≤ v ∧ v ≤ 32767
  | [], _, v, hv => by simp [bytesToInt16s] at hv
  | [x], _, v, hv => by simp [bytesToInt16s] at hv
  | lo :: hi :: rest, h, v, hv => by
    simp only [bytesToInt16s, List.mem_cons] at hv
    rcases hv with hv | hv
    · subst hv
      exact int16OfBytes_range lo hi (h lo (by simp)) (h hi (by simp))
    · exact bytesToInt16s_range rest (fun x hx => h x (by simp [hx])) v hv

theorem int16_decode_encode (v : ℤ) (h1 : -32768 ≤ v) (h2 : v ≤ 32767) :
    int16OfBytes ((v % 65536).toNat % 256) ((v % 65536).toNat / 256) = v := by
  unfold int16OfBytes
  split <;> omega

theorem float_to_pcm16_length (xs : List ℚ) :
    (float_to_pcm16 xs).length = 2 * xs.length := by
  induction xs with
  | nil => rfl
  | cons a t ih =>
    simp only [float_to_pcm16, List.flatMap_cons, List.length_append,
      int16ToBytes, List.length_cons, List.length_nil] at *
    omega

theorem clip1_bounds (x : ℚ) : -1 ≤ clip1 x ∧ clip1 x ≤ 1 := by
  unfold clip1
  exact ⟨le_max_left _ _, max_le (by norm_num) (min_le_right x 1)⟩

theorem ratTrunc_close (q : ℚ) : |(ratTrunc q : ℚ) - q| < 1 := by
  unfold ratTrunc
  by_cases h : q < 0
  · rw [if_pos h, abs_sub_lt_iff]
    refine ⟨?_, ?_⟩
    · linarith [Int.ceil_lt_add_one q]
    · linarith [Int.le_ceil q]
  · rw [if_neg h, abs_sub_lt_iff]
    refine ⟨?_, ?_⟩
    · linarith [Int.floor_le q]
    · linarith [Int.sub_one_lt_floor q]

theorem ratTrunc_bounds (q : ℚ) (h1 : -32767 ≤ q) (h2 : q ≤ 32767) :
    -32767 ≤ ratTrunc q ∧ ratTrunc q ≤ 32767 := by
  unfold ratTrunc
  by_cases h : q < 0
  · rw [if_pos h]
    constructor
    · have hle : (-32767 : ℚ) ≤ (⌈q⌉ : ℚ) := le_trans h1 (Int.le_ceil q)
      exact_mod_cast hle
    · have hlt : (⌈q⌉ : ℚ) < 1 := by
        linarith [Int.ceil_lt_add_one q]
      have : ⌈q⌉ < 1 := by exact_mod_cast hlt
      omega
  · rw [if_neg h]
    constructor
    · have hlt : (-1 : ℚ) < (⌊q⌋ : ℚ) := by
        have h0 : (0 : ℚ) ≤ q := not_lt.mp h
        linarith [Int.sub_one_lt_floor q]
      have : (-1 : ℤ) < ⌊q⌋ := by exact_mod_cast hlt
      omega
    · have hle : (⌊q⌋ : ℚ) ≤ 32767 := le_trans (Int.floor_le q) h2
      exact_mod_cast hle

theorem floatSampleToInt16_eq (x : ℚ) :
    floatSampleToInt16 x = ratTrunc (clip1 x * 32767) ∧
    -32767 ≤ floatSampleToInt16 x ∧ floatSampleToInt16 x ≤ 32767 := by
  have hc := clip1_bounds x
  have hq1 : -32767 ≤ clip1 x * 32767 := by nlinarith [hc.1]
  have hq2 : clip1 x * 32767 ≤ 32767 := by nlinarith [hc.2]
  have hb := ratTrunc_bounds _ hq1 hq2
  have hw : wrap16 (ratTrunc (clip1 x * 32767)) = ratTrunc (clip1 x * 32767) := by
    unfold wrap16
    omega
  refine ⟨?_, ?_, ?_⟩
  · simp only [floatSampleToInt16]
    exact hw
  · simp only [floatSampleToInt16]
    rw [hw]
    exact hb.1
  · simp only [floatSampleToInt16]
    rw [hw]
    exact hb.2

theorem bytesToInt16s_float_to_pcm16 (xs : List ℚ) :
    bytesToInt16s (float_to_pcm16 xs) = xs.map floatSampleToInt16 := by
  induction xs with
  | nil => rfl
  | cons a t ih =>
    have hr := floatSampleToInt16_eq a
    have hstep : float_to_pcm16 (a :: t) =
        (floatSampleToInt16 a % 65536).toNat % 256 ::
          ((floatSampleToInt16 a % 65536).toNat / 256 :: float_to_pcm16 t) := by
      simp [float_to_pcm16, int16ToBytes]
    rw [hstep, List.map_cons]
    simp only [bytesToInt16s]
    rw [int16_decode_encode _ (by have := hr.2.1; omega) hr.2.2, ih]

theorem roundtrip_sample (v : ℤ) (h1 : -32768 ≤ v) (h2 : v ≤ 32767) :
    (floatSampleToInt16 ((v : ℚ) / 32768) - v).natAbs ≤ 1 := by
  set q : ℚ := (v : ℚ) / 32768 with hq
  have hvq1 : (-32768 : ℚ) ≤ (v : ℚ) := by exact_mod_cast h1
  have hvq2 : (v : ℚ) ≤ 32767 := by exact_mod_cast h2
  have hql : -1 ≤ q := by
    rw [hq, le_div_iff₀ (by norm_num : (0:ℚ) < 32768)]
    linarith
  have hqu : q ≤ 1 := by
    rw [hq, div_le_one (by norm_num : (0:ℚ) < 32768)]
    linarith
  have hclip : clip1 q = q := by
    unfold clip1
    rw [min_eq_left hqu, max_eq_right hql]
  have htr : floatSampleToInt16 q = ratTrunc (q * 32767) := by
    rw [(floatSampleToInt16_eq q).1, hclip]
  have hclose : |(floatSampleToInt16 q : ℚ) - q * 32767| < 1 := by
    rw [htr]
    exact ratTrunc_close (q * 32767)
  have hqv : |q * 32767 - (v : ℚ)| ≤ 1 := by
    have hrepr : q * 32767 - (v : ℚ) = -(v : ℚ) / 32768 := by
      rw [hq]
      field_simp
      ring
    rw [hrepr, abs_le]
    constructor
    · rw [le_div_iff₀ (by norm_num : (0:ℚ) < 32768)]
      linarith
    · rw [div_le_iff₀ (by norm_num : (0:ℚ) < 32768)]
      linarith
  have habs : |(floatSampleToInt16 q : ℚ) - (v : ℚ)| < 2 := by
    calc |(floatSampleToInt16 q : ℚ) - (v : ℚ)|
        = |((floatSampleToInt16 q : ℚ) - q * 32767) + (q * 32767 - (v : ℚ))| := by
          congr 1
          ring
      _ ≤ |(floatSampleToInt16 q : ℚ) - q * 32767| + |q * 32767 - (v : ℚ)| :=
          abs_add _ _
      _ < 2 := by linarith
  have hint : |floatSampleToInt16 q - v| < 2 := by
    have hcast : ((floatSampleToInt16 q - v : ℤ) : ℚ) =
        (floatSampleToInt16 q : ℚ) - (v : ℚ) := by push_cast; ring
    have habs' := habs
    rw [← hcast, ← Int.cast_abs] at habs'
    exact_mod_cast habs'
  rw [Int.abs_eq_natAbs] at hint
  omega

theorem forall₂_map_self {α β : Type} (P : β → α → Prop) (g : α → β) :
    ∀ (l : List α), (∀ a ∈ l, P (g a) a) → List.Forall₂ P (l.map g) l
  | [], _ => List.Forall₂.nil
  | a :: t, h =>
    List.Forall₂.cons (h a (by simp))
      (forall₂_map_self P g t (fun b hb => h b (by simp [hb])))

/-- C6: for every even-length byte string of valid bytes,
`float_to_pcm16 (pcm16_to_float b)` is a byte string of the same length
whose int16 samples each differ from the corresponding sample of `b` by at
most one least-significant bit. -/
theorem pcm16_roundtrip (b : List ℕ) (heven : b.length % 2 = 0)
    (hbyte : ∀ x ∈ b, x < 256) :
    (float_to_pcm16 (pcm16_to_float b)).length = b.length ∧
    List.Forall₂ (fun r v => (r - v).natAbs ≤ 1)
      (bytesToInt16s (float_to_pcm16 (pcm16_to_float b)))
      (bytesToInt16s b) := by
  constructor
  · rw [float_to_pcm16_length]
    simp only [pcm16_to_float, List.length_map]
    exact bytesToInt16s_length b heven
  · rw [bytesToInt16s_float_to_pcm16]
    simp only [pcm16_to_float, List.map_map]
    refine forall₂_map_self (fun r v => (r - v).natAbs ≤ 1)
      (floatSampleToInt16 ∘ fun v : ℤ => (v : ℚ) / 32768) (bytesToInt16s b) ?_
    intro v hv
    have hr := bytesToInt16s_range b hbyte v hv
    exact roundtrip_sample v hr.1 hr.2

/-- C6 witness: the six bytes encoding the samples 0, 32767, -32768
round-trip to a six-byte string within one LSB per sample. -/
theorem pcm16_roundtrip_witness :
    (float_to_pcm16 (pcm16_to_float [0, 0, 255, 127, 0, 128])).length = 6 ∧
    List.Forall₂ (fun r v => (r - v).natAbs ≤ 1)
      (bytesToInt16s (float_to_pcm16 (pcm16_to_float [0, 0, 255, 127, 0, 128])))
      (bytesToInt16s [0, 0, 255, 127, 0, 128]) :=
  pcm16_roundtrip [0, 0, 255, 127, 0, 128] (by decide) (by decide)

/-! ### Resampler lemmas (audio_utils.py, resample_float) -/

theorem pyRound_zero : pyRound 0 = 0 := by
  norm_num [pyRound]

/-- The code's clamped `left + 1` interpolation equals interpolation with
the clamped ceiling index: at integer positions the fractional weight is
zero, elsewhere the ceiling is exactly `floor + 1`. -/
theorem code_lerp_eq_lerpAt (x : List ℚ) (p : ℚ) (hp : 0 ≤ p) :
    (1 - (p - (⌊p⌋ : ℚ))) * x.getD ⌊p⌋.toNat 0 +
      (p - (⌊p⌋ : ℚ)) * x.getD (min (⌊p⌋.toNat + 1) (x.length - 1)) 0 =
    lerpAt x p := by
  unfold lerpAt
  by_cases h : (⌊p⌋ : ℚ) = p
  · have hfrac : p - (⌊p⌋ : ℚ) = 0 := by rw [h]; ring
    rw [hfrac]
    ring
  · have hceil : ⌈p⌉ = ⌊p⌋ + 1 := by
      have hub : ⌈p⌉ ≤ ⌊p⌋ + 1 := Int.ceil_le_floor_add_one p
      have hlb : ⌊p⌋ < ⌈p⌉ := by
        have hflt : (⌊p⌋ : ℚ) < p := lt_of_le_of_ne (Int.floor_le p) h
        have hcast : (⌊p⌋ : ℚ) < (⌈p⌉ : ℚ) := lt_of_lt_of_le hflt (Int.le_ceil p)
        exact_mod_cast hcast
      omega
    have hfl0 : 0 ≤ ⌊p⌋ := Int.floor_nonneg.mpr hp
    have htn : ⌈p⌉.toNat = ⌊p⌋.toNat + 1 := by
      rw [hceil]
      omega
    rw [htn]

/-- C7: resample_float is the identity on equal rates; for different rates,
when the computed output length is at most 1 it returns a single zero
sample, and otherwise the output has exactly the computed length
`round(len(x) * dst / src)` and every sample is the linear interpolation of
`x` at the uniformly spaced fractional positions across [0, len(x)-1] with
the ceiling index clamped to the last valid index. -/
theorem resample_float_spec (x : List ℚ) (src_sr dst_sr : ℕ)
    (_hsrc : 0 < src_sr) :
    resample_float x src_sr src_sr = x ∧
    (src_sr ≠ dst_sr →
      (resample_out_len x.length src_sr dst_sr ≤ 1 →
        resample_float x src_sr dst_sr = [0]) ∧
      (2 ≤ resample_out_len x.length src_sr dst_sr →
        (resample_float x src_sr dst_sr).length =
          resample_out_len x.length src_sr dst_sr ∧
        ∀ i < resample_out_len x.length src_sr dst_sr,
          (resample_float x src_sr dst_sr).getD i 0 =
            lerpAt x (((x.length : ℚ) - 1) * (i : ℚ) /
              ((resample_out_len x.length src_sr dst_sr : ℚ) - 1)))) := by
  refine ⟨by simp [resample_float], fun hne => ⟨fun hle => ?_, fun h2 => ?_⟩⟩
  · simp only [resample_float]
    rw [if_neg hne, if_pos hle]
  · have hlen : 1 ≤ x.length := by
      by_contra hx
      have hx0 : x.length = 0 := by omega
      have hz : resample_out_len x.length src_sr dst_sr = 0 := by
        rw [hx0]
        simp [resample_out_len, pyRound_zero]
      omega
    have hform : resample_float x src_sr dst_sr =
        (List.range (resample_out_len x.length src_sr dst_sr)).map (fun i : ℕ =>
          (1 - (((x.length : ℚ) - 1) * (i : ℚ) /
                ((resample_out_len x.length src_sr dst_sr : ℚ) - 1) -
              (⌊((x.length : ℚ) - 1) * (i : ℚ) /
                ((resample_out_len x.length src_sr dst_sr : ℚ) - 1)⌋ : ℚ))) *
            x.getD (⌊((x.length : ℚ) - 1) * (i : ℚ) /
              ((resample_out_len x.length src_sr dst_sr : ℚ) - 1)⌋).toNat 0 +
          (((x.length : ℚ) - 1) * (i : ℚ) /
              ((resample_out_len x.length src_sr dst_sr : ℚ) - 1) -
            (⌊((x.length : ℚ) - 1) * (i : ℚ) /
              ((resample_out_len x.length src_sr dst_sr : ℚ) - 1)⌋ : ℚ)) *
            x.getD (min ((⌊((x.length : ℚ) - 1) * (i : ℚ) /
              ((resample_out_len x.length src_sr dst_sr : ℚ) - 1)⌋).toNat + 1)
              (x.length - 1)) 0) := by
      simp only [resample_float]
      rw [if_neg hne, if_neg (by omega)]
    refine ⟨by rw [hform]; simp, ?_⟩
    intro i hi
    have hgd : (resample_float x src_sr dst_sr).getD i 0 =
        (1 - (((x.length : ℚ) - 1) * (i : ℚ) /
              ((resample_out_len x.length src_sr dst_sr : ℚ) - 1) -
            (⌊((x.length : ℚ) - 1) * (i : ℚ) /
              ((resample_out_len x.length src_sr dst_sr : ℚ) - 1)⌋ : ℚ))) *
          x.getD (⌊((x.length : ℚ) - 1) * (i : ℚ) /
            ((resample_out_len x.length src_sr dst_sr : ℚ) - 1)⌋).toNat 0 +
        (((x.length : ℚ) - 1) * (i : ℚ) /
            ((resample_out_len x.length src_sr dst_sr : ℚ) - 1) -
          (⌊((x.length : ℚ) - 1) * (i : ℚ) /
            ((resample_out_len x.length src_sr dst_sr : ℚ) - 1)⌋ : ℚ)) *
          x.getD (min ((⌊((x.length : ℚ) - 1) * (i : ℚ) /
            ((resample_out_len x.length src_sr dst_sr : ℚ) - 1)⌋).toNat + 1)
            (x.length - 1)) 0 := by
      rw [hform, List.getD_eq_getElem?_getD, List.getElem?_map,
        List.getElem?_range hi]
      rfl
    rw [hgd]
    refine code_lerp_eq_lerpAt x _ ?_
    refine div_nonneg (mul_nonneg ?_ ?_) ?_
    · have hc : (1 : ℚ) ≤ (x.length : ℚ) := by exact_mod_cast hlen
      linarith
    · positivity
    · have hc : (2 : ℚ) ≤ (resample_out_len x.length src_sr dst_sr : ℚ) := by
        exact_mod_cast h2
      linarith

/-- C7 witness: resampling [0, 2] from rate 1 to rate 2 is covered by the
identity, degenerate-guard, and interpolation clauses at concrete inputs. -/
theorem resample_float_spec_witness :
    resample_float ([0, 2] : List ℚ) 1 1 = [0, 2] ∧
    (resample_float ([0, 2] : List ℚ) 1 2).length = resample_out_len 2 1 2 ∧
    resample_float ([] : List ℚ) 1 2 = [0] := by
  have hm : 2 ≤ resample_out_len 2 1 2 := by
    norm_num [resample_out_len, pyRound]
  have hz : resample_out_len (List.length ([] : List ℚ)) 1 2 ≤ 1 := by
    norm_num [resample_out_len, pyRound]
  refine ⟨(resample_float_spec [0, 2] 1 1 (by norm_num)).1, ?_, ?_⟩
  · exact ((((resample_float_spec [0, 2] 1 2 (by norm_num)).2) (by norm_num)).2 hm).1
  · exact ((((resample_float_spec [] 1 2 (by norm_num)).2) (by norm_num)).1 hz)

/-! ### Frame accumulator lemmas (audio_io.py, MicStream callback) -/

theorem float_to_pcm16_append (a b : List ℚ) :
    float_to_pcm16 (a ++ b) = float_to_pcm16 a ++ float_to_pcm16 b := by
  simp [float_to_pcm16]

theorem emit_frames_pos (fl : ℕ) (buf : List ℚ)
    (h : 0 < fl ∧ fl ≤ buf.length) :
    emit_frames fl buf =
      ((emit_frames fl (buf.drop fl)).1,
       float_to_pcm16 (buf.take fl) :: (emit_frames fl (buf.drop fl)).2) := by
  rw [emit_frames]
  rw [dif_pos h]

theorem emit_frames_neg (fl : ℕ) (buf : List ℚ)
    (h : ¬ (0 < fl ∧ fl ≤ buf.length)) :
    emit_frames fl buf = (buf, []) := by
  rw [emit_frames]
  rw [dif_neg h]

theorem emit_frames_spec_aux (fl : ℕ) (hfl : 0 < fl) :
    ∀ (n : ℕ) (buf : List ℚ), buf.length ≤ n →
      ∃ S : List ℚ,
        buf = S ++ (emit_frames fl buf).1 ∧
        (emit_frames fl buf).1.length < fl ∧
        (emit_frames fl buf).2.flatten = float_to_pcm16 S ∧
        ∀ f ∈ (emit_frames fl buf).2, f.length = 2 * fl := by
  intro n
  induction n with
  | zero =>
    intro buf hb
    have hbuf : buf.length = 0 := by omega
    have hcond : ¬ (0 < fl ∧ fl ≤ buf.length) := by
      rintro ⟨-, hle⟩
      omega
    rw [emit_frames_neg fl buf hcond]
    exact ⟨[], by simp, by simpa [hbuf] using hfl, rfl, by simp⟩
  | succ n ih =>
    intro buf hb
    by_cases hcond : 0 < fl ∧ fl ≤ buf.length
    · have hdrop : (buf.drop fl).length ≤ n := by
        simp only [List.length_drop]
        omega
      obtain ⟨S, h1, h2, h3, h4⟩ := ih (buf.drop fl) hdrop
      rw [emit_frames_pos fl buf hcond]
      refine ⟨buf.take fl ++ S, ?_, ?_, ?_, ?_⟩
      · conv_lhs => rw [← List.take_append_drop fl buf, h1]
        rw [List.append_assoc]
      · exact h2
      · show (float_to_pcm16 (buf.take fl) ::
            (emit_frames fl (buf.drop fl)).2).flatten =
          float_to_pcm16 (buf.take fl ++ S)
        rw [List.flatten_cons, h3, float_to_pcm16_append]
      · intro f hf
        rcases List.mem_cons.mp hf with hf | hf
        · rw [hf, float_to_pcm16_length, List.length_take,
            min_eq_left hcond.2]
        · exact h4 f hf
    · rw [emit_frames_neg fl buf hcond]
      have hlt : buf.length < fl := by
        rcases not_and_or.mp hcond with hc | hc
        · omega
        · omega
      exact ⟨[], by simp, hlt, rfl, by simp⟩

theorem emit_frames_spec (fl : ℕ) (hfl : 0 < fl) (buf : List ℚ) :
    ∃ S : List ℚ,
      buf = S ++ (emit_frames fl buf).1 ∧
      (emit_frames fl buf).1.length < fl ∧
      (emit_frames fl buf).2.flatten = float_to_pcm16 S ∧
      ∀ f ∈ (emit_frames fl buf).2, f.length = 2 * fl :=
  emit_frames_spec_aux fl hfl buf.length buf le_rfl

theorem accumRun_cons (fl : ℕ) (accum b : List ℚ) (rest : List (List ℚ)) :
    accumRun fl accum (b :: rest) =
      ((accumRun fl (emit_frames fl (accum ++ b)).1 rest).1,
       (emit_frames fl (accum ++ b)).2 ++
         (accumRun fl (emit_frames fl (accum ++ b)).1 rest).2) := rfl

theorem accumRun_spec (fl : ℕ) (hfl : 0 < fl) :
    ∀ (bs : List (List ℚ)) (accum : List ℚ), accum.length < fl →
      ∃ S : List ℚ,
        accum ++ bs.flatten = S ++ (accumRun fl accum bs).1 ∧
        (accumRun fl accum bs).1.length < fl ∧
        (accumRun fl accum bs).2.flatten = float_to_pcm16 S ∧
        ∀ f ∈ (accumRun fl accum bs).2, f.length = 2 * fl := by
  intro bs
  induction bs with
  | nil =>
    intro accum ha
    exact ⟨[], by simp [accumRun], by simpa [accumRun] using ha, rfl,
      by simp [accumRun]⟩
  | cons b rest ih =>
    intro accum ha
    obtain ⟨S1, e1, e2, e3, e4⟩ := emit_frames_spec fl hfl (accum ++ b)
    obtain ⟨S2, f1, f2, f3, f4⟩ := ih (emit_frames fl (accum ++ b)).1 e2
    refine ⟨S1 ++ S2, ?_, ?_, ?_, ?_⟩
    · rw [accumRun_cons]
      calc accum ++ (b :: rest).flatten = (accum ++ b) ++ rest.flatten := by
            rw [List.flatten_cons, ← List.append_assoc]
        _ = (S1 ++ (emit_frames fl (accum ++ b)).1) ++ rest.flatten := by
            rw [← e1]
        _ = S1 ++ ((emit_frames fl (accum ++ b)).1 ++ rest.flatten) := by
            rw [List.append_assoc]
        _ = S1 ++ (S2 ++
              (accumRun fl (emit_frames fl (accum ++ b)).1 rest).1) := by
            rw [f1]
        _ = (S1 ++ S2) ++
              (accumRun fl (emit_frames fl (accum ++ b)).1 rest).1 := by
            rw [List.append_assoc]
    · rw [accumRun_cons]
      exact f2
    · rw [accumRun_cons]
      show ((emit_frames fl (accum ++ b)).2 ++
          (accumRun fl (emit_frames fl (accum ++ b)).1 rest).2).flatten =
        float_to_pcm16 (S1 ++ S2)
      rw [List.flatten_append, e3, f3, float_to_pcm16_append]
    · rw [accumRun_cons]
      intro f hf
      rcases List.mem_append.mp hf with hf | hf
      · exact e4 f hf
      · exact f4 f hf

/-- C5: for any sequence of irregularly sized input batches, the
concatenation of all frames emitted by the accumulator equals the
PCM16 conversion of the concatenation of all input samples minus the
retained tail, the tail is strictly shorter than one frame, and every
emitted frame has exactly `frame_samples * 2` bytes. -/
theorem frame_accumulator_spec (batches : List (List ℚ))
    (target_sr frame_ms : ℕ) (hfl : 0 < frame_samples target_sr frame_ms) :
    ∃ emitted : List ℚ,
      batches.flatten = emitted ++
        (accumRun (frame_samples target_sr frame_ms) [] batches).1 ∧
      (accumRun (frame_samples target_sr frame_ms) [] batches).1.length <
        frame_samples target_sr frame_ms ∧
      (accumRun (frame_samples target_sr frame_ms) [] batches).2.flatten =
        float_to_pcm16 emitted ∧
      ∀ f ∈ (accumRun (frame_samples target_sr frame_ms) [] batches).2,
        f.length = frame_samples target_sr frame_ms * 2 := by
  obtain ⟨S, h1, h2, h3, h4⟩ := accumRun_spec (frame_samples target_sr frame_ms)
    hfl batches [] (by simpa using hfl)
  refine ⟨S, by simpa using h1, h2, h3, fun f hf => ?_⟩
  have := h4 f hf
  omega

/-- C5 witness: with frame_samples 2000 1 = 2 samples per frame, feeding
the batches [[0], [0,0]] satisfies the accumulator contract. -/
theorem frame_accumulator_spec_witness :
    ∃ emitted : List ℚ,
      ([[0], [0, 0]] : List (List ℚ)).flatten = emitted ++
        (accumRun (frame_samples 2000 1) [] [[0], [0, 0]]).1 ∧
      (accumRun (frame_samples 2000 1) [] [[0], [0, 0]]).1.length <
        frame_samples 2000 1 ∧
      (accumRun (frame_samples 2000 1) [] [[0], [0, 0]]).2.flatten =
        float_to_pcm16 emitted ∧
      ∀ f ∈ (accumRun (frame_samples 2000 1) [] [[0], [0, 0]]).2,
        f.length = frame_samples 2000 1 * 2 :=
  frame_accumulator_spec [[0], [0, 0]] 2000 1 (by decide)

/-! ### Tool-calling round lemmas (openai_pipe.py) -/

theorem foldl_processToolCall_length (dev : DeviceOracle)
    (parseArgs : String → Option (List (String × String))) :
    ∀ (tcs : List ToolCall) (acc : List ChatMsg × List (String × Option String)),
      ((tcs.foldl (processToolCall dev parseArgs) acc).2).length =
        acc.2.length + tcs.countP knownTool := by
  intro tcs
  induction tcs with
  | nil =>
    intro acc
    simp
  | cons tc rest ih =>
    intro acc
    rw [List.foldl_cons, ih]
    have hr : ((processToolCall dev parseArgs acc tc).2).length =
        acc.2.length + (if knownTool tc then 1 else 0) := by
      simp only [processToolCall, call_tool, knownTool, List.length_append]
      by_cases h1 : tc.fname = "garage_open"
      · simp [h1]
      · by_cases h2 : tc.fname = "garage_close"
        · simp [h1, h2]
        · simp [h1, h2]
    rw [hr, List.countP_cons]
    by_cases hk : knownTool tc
    · simp [hk]
      omega
    · simp [hk]

/-- C3 counterexample: a first response with exactly one tool call, whose
name is not a known tool, triggers zero Device Controller dispatches
rather than one; the pipeline feeds back a structured error and still
issues exactly one second completion. -/
theorem llm_tool_round_counterexample :
    (c3Engine (llmInitMessages "open sesame" none "d") true).tool_calls.length = 1 ∧
    (llm c3Engine c3Dev c3Parse "open sesame" none "d").device_calls.length = 0 ∧
    (llm c3Engine c3Dev c3Parse "open sesame" none "d").requests.length = 2 := by
  refine ⟨rfl, ?_, rfl⟩
  simp [llm, c3Engine, c3Dev, c3Parse, processToolCall, call_tool]

/-- C3 amended: a first response with zero tool calls issues exactly one
completion request, makes no Device Controller call, and returns the first
reply text; a response with tool calls issues exactly two completion
requests — never a third, whatever either response contains — and makes
exactly one Device Controller dispatch per tool call naming a known tool
(`garage_open`/`garage_close`), with unknown names dispatching nothing. -/
theorem llm_tool_rounds (engine : List ChatMsg → Bool → EngineMsg)
    (dev : DeviceOracle)
    (parseArgs : String → Option (List (String × String)))
    (text : String) (system_prompt : Option String) (default_prompt : String) :
    ((engine (llmInitMessages text system_prompt default_prompt) true).tool_calls = [] →
      (llm engine dev parseArgs text system_prompt default_prompt).requests.length = 1 ∧
      (llm engine dev parseArgs text system_prompt default_prompt).device_calls = [] ∧
      (llm engine dev parseArgs text system_prompt default_prompt).reply =
        ((engine (llmInitMessages text system_prompt default_prompt) true).content.getD "").trim) ∧
    ((engine (llmInitMessages text system_prompt default_prompt) true).tool_calls ≠ [] →
      (llm engine dev parseArgs text system_prompt default_prompt).requests.length = 2 ∧
      (llm engine dev parseArgs text system_prompt default_prompt).device_calls.length =
        (engine (llmInitMessages text system_prompt default_prompt) true).tool_calls.countP knownTool) ∧
    (llm engine dev parseArgs text system_prompt default_prompt).requests.length ≤ 2 := by
  by_cases h : (engine (llmInitMessages text system_prompt default_prompt) true).tool_calls = []
  · refine ⟨fun _ => ?_, fun hne => absurd h hne, ?_⟩
    · simp [llm, h]
    · simp [llm, h]
  · refine ⟨fun he => absurd he h, fun _ => ⟨?_, ?_⟩, ?_⟩
    · simp [llm, h]
    · simp only [llm, if_neg h]
      rw [foldl_processToolCall_length]
      simp
    · simp [llm, h]

/-- C3 witness: the amended claim at the concrete oracles — one
completion and no dispatch without tool calls; two completions and
zero-of-one dispatches for the hallucinated tool call. -/
theorem llm_tool_rounds_witness :
    (llm c3EngineNoTools c3Dev c3Parse "hi" none "d").requests.length = 1 ∧
    (llm c3Engine c3Dev c3Parse "hi" none "d").requests.length = 2 ∧
    (llm c3Engine c3Dev c3Parse "hi" none "d").device_calls.length =
      (c3Engine (llmInitMessages "hi" none "d") true).tool_calls.countP knownTool :=
  ⟨((llm_tool_rounds c3EngineNoTools c3Dev c3Parse "hi" none "d").1 (by decide)).1,
   ((llm_tool_rounds c3Engine c3Dev c3Parse "hi" none "d").2.1 (by decide)).1,
   ((llm_tool_rounds c3Engine c3Dev c3Parse "hi" none "d").2.1 (by decide)).2⟩

/-! ### Persona prompt resolution (brain_server.py and openai_pipe.py) -/

/-- C9 counterexample: the persona "samantha" IS in the registry (mapped
to the empty prompt), yet the completion request carries the global
default system prompt, not the registered one. -/
theorem persona_prompt_counterexample :
    ([("samantha", "")].lookup "samantha" = some "") ∧
    (llm c9Engine c9Dev c9Parse "hi"
        (persona_system_prompt [("samantha", "")] (some "samantha"))
        "You are a helpful voice assistant.").requests =
      [([{ role := "system", content := some "You are a helpful voice assistant." },
         { role := "user", content := some "hi" }], true)] ∧
    ("You are a helpful voice assistant." : String) ≠ "" := by
  refine ⟨rfl, ?_, by decide⟩
  simp [llm, c9Engine, llmInitMessages, persona_system_prompt, pyOrStr]

/-- C9 amended: the completion always carries
`pyOrStr (persona_system_prompt prompts persona) default` as its system
prompt and never fails: a registered persona's prompt is used when both
the persona string and the registered prompt are non-empty; an absent or
unknown persona — and the edge cases of an empty persona string or an
empty registered prompt — fall back to the default prompt. -/
theorem persona_prompt_resolution (prompts : List (String × String))
    (persona : Option String) (default_prompt : String)
    (engine : List ChatMsg → Bool → EngineMsg) (dev : DeviceOracle)
    (parseArgs : String → Option (List (String × String))) (text : String) :
    ((llm engine dev parseArgs text (persona_system_prompt prompts persona)
        default_prompt).requests.getD 0 ([], true)).1.getD 0
        { role := "", content := none } =
      { role := "system",
        content := some (pyOrStr (persona_system_prompt prompts persona)
          default_prompt) } ∧
    (∀ p prompt, persona = some p → p ≠ "" → prompts.lookup p = some prompt →
      prompt ≠ "" →
      pyOrStr (persona_system_prompt prompts persona) default_prompt = prompt) ∧
    (persona = none →
      pyOrStr (persona_system_prompt prompts persona) default_prompt =
        default_prompt) ∧
    (∀ p, persona = some p → prompts.lookup p = none →
      pyOrStr (persona_system_prompt prompts persona) default_prompt =
        default_prompt) := by
  refine ⟨?_, ?_, ?_, ?_⟩
  · by_cases h : (engine (llmInitMessages text
        (persona_system_prompt prompts persona) default_prompt) true).tool_calls = []
    · simp only [llm, if_pos h]
      simp [llmInitMessages]
    · simp only [llm, if_neg h]
      simp [llmInitMessages]
  · rintro p prompt rfl hp hlook hprompt
    simp [pyOrStr, persona_system_prompt, hp, hlook, hprompt]
  · rintro rfl
    simp [pyOrStr, persona_system_prompt]
  · rintro p rfl hlook
    by_cases hp : p = ""
    · simp [pyOrStr, persona_system_prompt, hp]
    · simp [pyOrStr, persona_system_prompt, hp, hlook]

/-- C9 witness: a registered persona with a non-empty prompt is used, and
an unregistered persona falls back to the default. -/
theorem persona_prompt_resolution_witness :
    pyOrStr (persona_system_prompt [("samantha", "S")] (some "samantha")) "D" =
      "S" ∧
    pyOrStr (persona_system_prompt [("samantha", "S")] (some "krishna")) "D" =
      "D" ∧
    ((llm c9Engine c9Dev c9Parse "hi"
        (persona_system_prompt [("samantha", "S")] (some "samantha"))
        "D").requests.getD 0 ([], true)).1.getD 0 { role := "", content := none } =
      { role := "system",
        content := some (pyOrStr
          (persona_system_prompt [("samantha", "S")] (some "samantha")) "D") } :=
  ⟨(persona_prompt_resolution [("samantha", "S")] (some "samantha") "D"
      c9Engine c9Dev c9Parse "hi").2.1 "samantha" "S" rfl (by decide) (by decide)
      (by decide),
   (persona_prompt_resolution [("samantha", "S")] (some "krishna") "D"
      c9Engine c9Dev c9Parse "hi").2.2.2 "krishna" rfl (by decide),
   (persona_prompt_resolution [("samantha", "S")] (some "samantha") "D"
      c9Engine c9Dev c9Parse "hi").1⟩

/-! ### Orchestrator gating (brain_server.py) -/

/-- C4: for an utterance_end event: an absent or undersized buffer makes
no transcription call and sends exactly one IDLE status; an empty
transcription result makes no completion call; an effective mode of
"wake" makes no completion call whatever the transcript says. -/
theorem utterance_end_gating (prompts : List (String × String))
    (o : PipelineOracle) (st : ConnState)
    (mfield pfield : Option (Option String)) :
    ((st.buf = none ∨
        ∃ b, st.buf = some b ∧ b.pcm.length < min_utterance_bytes) →
      (serverStep prompts o st (.utterance_end mfield pfield)).stt_calls = [] ∧
      (serverStep prompts o st (.utterance_end mfield pfield)).sent =
        [.status "IDLE" ""]) ∧
    (∀ b, st.buf = some b → o.stt b.pcm = "" →
      (serverStep prompts o st (.utterance_end mfield pfield)).llm_calls = []) ∧
    (endMode st.buf mfield = some "wake" →
      (serverStep prompts o st (.utterance_end mfield pfield)).llm_calls = []) := by
  obtain ⟨buf, sr, ch⟩ := st
  match buf with
  | none =>
    exact ⟨fun _ => ⟨rfl, rfl⟩, fun b hb => by simp at hb, fun _ => rfl⟩
  | some b =>
    by_cases hlen : b.pcm.length < min_utterance_bytes
    · refine ⟨fun _ => ?_, fun b' hb' htext => ?_, fun hmode => ?_⟩
      · constructor <;> simp [serverStep, hlen]
      · simp [serverStep, hlen]
      · simp [serverStep, hlen]
    · refine ⟨fun hcase => ?_, fun b' hb' htext => ?_, fun hmode => ?_⟩
      · rcases hcase with h | ⟨b', hb', hlt⟩
        · simp at h
        · simp only [Option.some.injEq] at hb'
          rw [← hb'] at hlt
          exact absurd hlt hlen
      · simp only [Option.some.injEq] at hb'
        subst hb'
        simp [serverStep, hlen, htext]
      · by_cases htext : o.stt b.pcm = ""
        · simp [serverStep, hlen, htext]
        · simp only [endMode] at hmode
          simp [serverStep, hlen, htext, endMode, hmode]

/-- C4 witness: with no open buffer and mode "wake", no transcription and
no completion call and a lone IDLE status; with a 2000-byte buffer whose
transcription is empty, no completion call. -/
theorem utterance_end_gating_witness :
    (serverStep [] emptyOracle ⟨none, 16000, 1⟩
        (.utterance_end (some (some "wake")) none)).stt_calls = [] ∧
    (serverStep [] emptyOracle ⟨none, 16000, 1⟩
        (.utterance_end (some (some "wake")) none)).sent =
      [.status "IDLE" ""] ∧
    (serverStep [] emptyOracle ⟨none, 16000, 1⟩
        (.utterance_end (some (some "wake")) none)).llm_calls = [] ∧
    (serverStep [] emptyOracle
        ⟨some ⟨List.replicate 2000 0, some "query", none, 16000, 1⟩, 16000, 1⟩
        (.utterance_end none none)).llm_calls = [] :=
  ⟨((utterance_end_gating [] emptyOracle ⟨none, 16000, 1⟩
      (some (some "wake")) none).1 (Or.inl rfl)).1,
   ((utterance_end_gating [] emptyOracle ⟨none, 16000, 1⟩
      (some (some "wake")) none).1 (Or.inl rfl)).2,
   (utterance_end_gating [] emptyOracle ⟨none, 16000, 1⟩
      (some (some "wake")) none).2.2 rfl,
   (utterance_end_gating [] emptyOracle
      ⟨some ⟨List.replicate 2000 0, some "query", none, 16000, 1⟩, 16000, 1⟩
      none none).2.1 ⟨List.replicate 2000 0, some "query", none, 16000, 1⟩
      rfl rfl⟩

/-- C8: if the first message is not a well-formed hello, or a shared
secret is configured (non-empty) and the hello's secret does not match
it, the connection is closed immediately: the handshake is rejected,
nothing is sent, and none of the connection's events is processed (no
transcription or completion call either). -/
theorem handshake_rejects (shared_secret : String)
    (prompts : List (String × String)) (o : PipelineOracle)
    (first : Option HelloMsg) (events : List ClientEvent)
    (h : ∀ hm, first = some hm → hm.mtype ≠ some "hello" ∨
        (shared_secret ≠ "" ∧ hm.secret.getD "" ≠ shared_secret)) :
    handle_client shared_secret prompts o first events = ⟨false, [], [], []⟩ := by
  match first with
  | none => rfl
  | some hm =>
    rcases h hm rfl with ht | hs
    · simp [handle_client, ht]
    · by_cases ht : hm.mtype = some "hello"
      · simp [handle_client, ht, hs]
      · simp [handle_client, ht]

/-- C8 witness: a hello with a wrong secret, and a non-hello first
message, are both rejected with an empty trace even with pending events. -/
theorem handshake_rejects_witness :
    handle_client "s3cret" [] emptyOracle
        (some ⟨some "hello", some "c1", some 16000, some 1, some "wrong"⟩)
        [.binary [1, 2, 3], .utterance_end none none] =
      ⟨false, [], [], []⟩ ∧
    handle_client "" [] emptyOracle
        (some ⟨some "status", none, none, none, none⟩)
        [.utterance_end none none] =
      ⟨false, [], [], []⟩ :=
  ⟨handshake_rejects "s3cret" [] emptyOracle _ _
      (fun hm heq => by cases heq; exact Or.inr (by decide)),
   handshake_rejects "" [] emptyOracle _ _
      (fun hm heq => by cases heq; exact Or.inl (by decide))⟩

/-- C10: with no open utterance buffer, a binary payload is silently
discarded (state unchanged, nothing sent, no external call) and an
utterance_end sends exactly one IDLE status, leaves the buffer absent and
every other piece of per-connection state unchanged, and makes no
external call; in both cases the loop goes on processing the remaining
events of the connection. -/
theorem no_buffer_events (prompts : List (String × String))
    (o : PipelineOracle) (st : ConnState) (hbuf : st.buf = none) :
    (∀ b, serverStep prompts o st (.binary b) = ⟨st, [], [], []⟩) ∧
    (∀ mfield pfield,
      serverStep prompts o st (.utterance_end mfield pfield) =
        ⟨st, [.status "IDLE" ""], [], []⟩) ∧
    (∀ ev rest, serverRun prompts o st (ev :: rest) =
      ⟨(serverRun prompts o (serverStep prompts o st ev).st rest).st,
       (serverStep prompts o st ev).sent ++
         (serverRun prompts o (serverStep prompts o st ev).st rest).sent,
       (serverStep prompts o st ev).stt_calls ++
         (serverRun prompts o (serverStep prompts o st ev).st rest).stt_calls,
       (serverStep prompts o st ev).llm_calls ++
         (serverRun prompts o (serverStep prompts o st ev).st rest).llm_calls⟩) := by
  obtain ⟨buf, sr, ch⟩ := st
  simp only [ConnState.buf] at hbuf
  subst hbuf
  exact ⟨fun b => rfl, fun mfield pfield => rfl, fun ev rest => rfl⟩

/-- C10 witness: a binary payload and an utterance_end with no open
buffer, at concrete inputs. -/
theorem no_buffer_events_witness :
    serverStep [] emptyOracle ⟨none, 16000, 1⟩ (.binary [1, 2]) =
      ⟨⟨none, 16000, 1⟩, [], [], []⟩ ∧
    serverStep [] emptyOracle ⟨none, 16000, 1⟩ (.utterance_end none none) =
      ⟨⟨none, 16000, 1⟩, [.status "IDLE" ""], [], []⟩ :=
  ⟨(no_buffer_events [] emptyOracle ⟨none, 16000, 1⟩ rfl).1 [1, 2],
   (no_buffer_events [] emptyOracle ⟨none, 16000, 1⟩ rfl).2.1 none none⟩

end Samantha
